import Mathlib

/-!
Shallow embedding of the Durable Object layer of the `betterworker` crate
(`src/lib/worker/src/durable.rs`, `src/lib/worker/src/error.rs`,
`src/lib/worker/src/queue.rs`) together with the claims about it.

JavaScript values crossing the `wasm_bindgen` boundary are modelled by the
inductive `JVal`; serialisation through `serde_wasm_bindgen` is modelled by
`to_value` / `from_value`; the host's per-actor storage (which lives outside
this repository) is modelled from the spec as an association list of
structured-clone values.
-/

namespace BetterWorker

/-- A JavaScript value as seen through `wasm_bindgen` (the structured-clone
fragment used by the storage layer): `undefined`, `null`, booleans, numbers,
strings, arrays and plain string-keyed objects. -/
inductive JVal where
  | undefined : JVal
  | null : JVal
  | bool : Bool → JVal
  | num : Int → JVal
  | str : String → JVal
  | arr : List JVal → JVal
  | obj : List (String × JVal) → JVal
  deriving Repr

/-- `JsValue::is_object` from `wasm_bindgen`: true for plain objects and
arrays (`typeof v === "object" && v !== null`), false for `undefined`,
`null`, booleans, numbers and strings. -/
def JVal.is_object : JVal → Bool
  | .obj _ => true
  | .arr _ => true
  | _ => false

/-- The Rust type shapes named by the round-trip law: primitives (integer,
boolean, string), sequences, string-keyed maps, and optionals. This plays the
role of the `Serialize + DeserializeOwned` type parameter `T`. -/
inductive Ty where
  | int : Ty
  | bool : Ty
  | str : Ty
  | seq : Ty → Ty
  | map : Ty → Ty
  | opt : Ty → Ty
  deriving Repr, DecidableEq

/-- A Rust value of one of the supported shapes. -/
inductive RVal where
  | int : Int → RVal
  | bool : Bool → RVal
  | str : String → RVal
  | seq : List RVal → RVal
  | map : List (String × RVal) → RVal
  | opt : Option RVal → RVal
  deriving Repr

/-- `v` is a value of Rust type shape `t`. -/
def hasTy : RVal → Ty → Bool
  | .int _, .int => true
  | .bool _, .bool => true
  | .str _, .str => true
  | .seq xs, .seq t => xs.all (fun x => hasTy x t)
  | .map kvs, .map t => kvs.all (fun p => hasTy p.2 t)
  | .opt none, .opt _ => true
  | .opt (some v), .opt t => hasTy v t
  | _, _ => false

/-- `serde_wasm_bindgen::to_value`: primitives map to the corresponding JS
primitives, sequences to arrays, string-keyed maps to objects, `None` to
`undefined` and `Some(v)` to the serialisation of `v`. -/
def to_value : RVal → JVal
  | .int n => .num n
  | .bool b => .bool b
  | .str s => .str s
  | .seq xs => .arr (xs.attach.map (fun x => to_value x.1))
  | .map kvs => .obj (kvs.attach.map (fun p => (p.1.1, to_value p.1.2)))
  | .opt none => .undefined
  | .opt (some v) => to_value v
  decreasing_by
  · have := List.sizeOf_lt_of_mem x.2
    simp only [RVal.seq.sizeOf_spec]
    omega
  · have h := List.sizeOf_lt_of_mem p.2
    obtain ⟨⟨k, v⟩, hm⟩ := p
    simp only [RVal.map.sizeOf_spec]
    simp only [Prod.mk.sizeOf_spec] at h
    omega
  · simp only [RVal.opt.sizeOf_spec, Option.some.sizeOf_spec]
    omega

/-- `to_value` on a sequence is elementwise serialisation (unfolding of the
`attach` form used for termination). -/
theorem to_value_seq (xs : List RVal) :
    to_value (.seq xs) = .arr (xs.map to_value) := by
  simp [to_value, List.attach_map_coe]

/-- `to_value` on a map is entrywise serialisation of the values. -/
theorem to_value_map (kvs : List (String × RVal)) :
    to_value (.map kvs) = .obj (kvs.map (fun p => (p.1, to_value p.2))) := by
  simp only [to_value]
  congr 1
  rw [List.attach_map_coe (l := kvs) (f := fun p => (p.1, to_value p.2))]

/-- `JsValue::is_undefined`. -/
def JVal.is_undefined : JVal → Bool
  | .undefined => true
  | _ => false

/-- `JsValue::is_null`. -/
def JVal.is_null : JVal → Bool
  | .null => true
  | _ => false

/-- `serde_wasm_bindgen::from_value` at the Rust type shape `t` (type-directed
deserialisation): `undefined`/`null` deserialise to `None` at an option type;
any other mismatch of shape fails. -/
def from_value : Ty → JVal → Option RVal
  | .int, .num n => some (.int n)
  | .bool, .bool b => some (.bool b)
  | .str, .str s => some (.str s)
  | .seq t, .arr xs => (xs.mapM (fun x => from_value t x)).map .seq
  | .map t, .obj kvs =>
      (kvs.mapM (fun p => (from_value t p.2).map (fun v => (p.1, v)))).map .map
  | .opt t, j =>
      if j.is_undefined || j.is_null then some (.opt none)
      else (from_value t j).map (fun v => .opt (some v))
  | _, _ => none

/-- `to_value` never produces JS `null` (serde-wasm-bindgen maps `None` to
`undefined`, not `null`). -/
theorem to_value_is_null_false : ∀ v : RVal, (to_value v).is_null = false
  | .int _ => by simp [to_value, JVal.is_null]
  | .bool _ => by simp [to_value, JVal.is_null]
  | .str _ => by simp [to_value, JVal.is_null]
  | .seq _ => by rw [to_value_seq]; rfl
  | .map _ => by rw [to_value_map]; rfl
  | .opt none => by simp [to_value, JVal.is_null]
  | .opt (some v) => by
      rw [show to_value (.opt (some v)) = to_value v from by simp [to_value]]
      exact to_value_is_null_false v

mutual

/-- No sub-value of option type holds a `Some` whose payload itself
serialises to `undefined` (the one lossy case of the serde-wasm-bindgen
encoding, e.g. `Some(None)`). -/
def noCollapse : RVal → Bool
  | .int _ => true
  | .bool _ => true
  | .str _ => true
  | .seq xs => noCollapseList xs
  | .map kvs => noCollapseObj kvs
  | .opt none => true
  | .opt (some v) => noCollapse v && !(to_value v).is_undefined

def noCollapseList : List RVal → Bool
  | [] => true
  | x :: xs => noCollapse x && noCollapseList xs

def noCollapseObj : List (String × RVal) → Bool
  | [] => true
  | p :: ps => noCollapse p.2 && noCollapseObj ps

end

mutual

/-- Deserialisation inverts serialisation on well-typed values without a
collapsing `Some(None)`-like sub-value. -/
theorem from_to_value (t : Ty) (v : RVal) (ht : hasTy v t = true)
    (hnc : noCollapse v = true) : from_value t (to_value v) = some v := by
  cases v with
  | int n => cases t <;> simp_all [hasTy, to_value, from_value]
  | bool b => cases t <;> simp_all [hasTy, to_value, from_value]
  | str s => cases t <;> simp_all [hasTy, to_value, from_value]
  | seq xs =>
      cases t with
      | seq t =>
          rw [to_value_seq]
          simp only [hasTy] at ht
          simp only [noCollapse] at hnc
          have hl := from_to_value_list t xs ht hnc
          simp only [from_value, hl]
          rfl
      | int => simp [hasTy] at ht
      | bool => simp [hasTy] at ht
      | str => simp [hasTy] at ht
      | map _ => simp [hasTy] at ht
      | opt _ => simp [hasTy] at ht
  | map kvs =>
      cases t with
      | map t =>
          rw [to_value_map]
          simp only [hasTy] at ht
          simp only [noCollapse] at hnc
          have hl := from_to_value_obj t kvs ht hnc
          simp only [from_value, hl]
          rfl
      | int => simp [hasTy] at ht
      | bool => simp [hasTy] at ht
      | str => simp [hasTy] at ht
      | seq _ => simp [hasTy] at ht
      | opt _ => simp [hasTy] at ht
  | opt o =>
      cases o with
      | none =>
          cases t <;> simp_all [hasTy, to_value, from_value, JVal.is_undefined]
      | some w =>
          cases t with
          | opt t =>
              have ht' : hasTy w t = true := by simpa [hasTy] using ht
              have hnc' : noCollapse w = true ∧ (to_value w).is_undefined = false := by
                simpa [noCollapse] using hnc
              have hrec := from_to_value t w ht' hnc'.1
              rw [show to_value (.opt (some w)) = to_value w from by simp [to_value]]
              simp only [from_value, hnc'.2, to_value_is_null_false w, hrec]
              simp
          | int => simp [hasTy] at ht
          | bool => simp [hasTy] at ht
          | str => simp [hasTy] at ht
          | seq _ => simp [hasTy] at ht
          | map _ => simp [hasTy] at ht

theorem from_to_value_list (t : Ty) (xs : List RVal)
    (ht : xs.all (fun x => hasTy x t) = true) (hnc : noCollapseList xs = true) :
    (xs.map to_value).mapM (fun x => from_value t x) = some xs := by
  cases xs with
  | nil => rfl
  | cons x xs =>
      simp only [List.all_cons, Bool.and_eq_true] at ht
      simp only [noCollapseList, Bool.and_eq_true] at hnc
      have h1 := from_to_value t x ht.1 hnc.1
      have h2 := from_to_value_list t xs ht.2 hnc.2
      simp only [List.map_cons, List.mapM_cons, h1, h2]
      simp

theorem from_to_value_obj (t : Ty) (kvs : List (String × RVal))
    (ht : kvs.all (fun p => hasTy p.2 t) = true) (hnc : noCollapseObj kvs = true) :
    (kvs.map (fun p => (p.1, to_value p.2))).mapM
      (fun p => (from_value t p.2).map (fun v => (p.1, v))) = some kvs := by
  cases kvs with
  | nil => rfl
  | cons p ps =>
      simp only [List.all_cons, Bool.and_eq_true] at ht
      simp only [noCollapseObj, Bool.and_eq_true] at hnc
      have h1 := from_to_value t p.2 ht.1 hnc.1
      have h2 := from_to_value_obj t ps ht.2 hnc.2
      simp only [List.map_cons, List.mapM_cons, h1, h2]
      simp

end

/-- The `WorkerError` enum of `src/lib/worker/src/error.rs` (payloads of
foreign error types are modelled as their message strings). -/
inductive WorkerError where
  | BadEncoding
  | BodyUsed
  | EnvBindingError (name : String)
  | InvalidRange
  | UndefinedBinding (name : String)
  | BindingCast
  | MustPassInStructType
  | MessageEventNotText
  | WebSocketConnectionError
  | SerdeJsonError (msg : String)
  | SerdeWasmBindgenError (msg : String)
  | WorkerKvError (msg : String)
  | AwaitPromise (msg : String)
  | JsError (msg : String)
  | JsCast
  | DurableObjectStub
  | InvalidMessageBatch
  deriving Repr, DecidableEq

/-- `WorkerError::from_js_err` applied to a JS string value: `as_string()`
yields the string, so the result is the generic `JsError` variant carrying
that string. -/
def WorkerError.from_js_err_string (s : String) : WorkerError := .JsError s

/-- Modelled from the spec: the host's per-actor key-value store (spec §3
"Storage — key-value namespace private to one actor instance"; the store
itself lives in the host runtime, not in this repository). An association
list from string keys to structured-clone values; an absent key reads back
as `undefined`. -/
abbrev HostStorage := List (String × JVal)

/-- Modelled from the spec: the host read of one key; a key not present
resolves to `undefined`. -/
def hostGet (st : HostStorage) (k : String) : JVal :=
  match st.lookup k with
  | some v => v
  | none => .undefined

/-- Modelled from the spec: the host write of one key (overwrite in place,
append if new). -/
def hostPut (st : HostStorage) (k : String) (v : JVal) : HostStorage :=
  match st with
  | [] => [(k, v)]
  | (k', v') :: rest =>
      if k' = k then (k, v) :: rest else (k', v') :: hostPut rest k v

/-- Modelled from the spec: the host delete of one key, reporting whether the
key existed. -/
def hostDelete (st : HostStorage) (k : String) : Bool × HostStorage :=
  ((st.lookup k).isSome, st.filter (fun p => p.1 ≠ k))

/-- Modelled from the spec: the host multi-key write; all entries are applied
in one indivisible transaction (spec §3: "multi-get/multi-put/multi-delete
are each a single transaction"), modelled as a single state transition. -/
def hostPutMultiple (st : HostStorage) (kvs : List (String × JVal)) : HostStorage :=
  kvs.foldl (fun acc p => hostPut acc p.1 p.2) st

namespace Storage

/-- `Storage::get` from `durable.rs`: awaits the host value, fails with the
JS error string "No such value in storage." when the value is `undefined`,
and otherwise deserialises it at the caller's type `T` (here the shape `t`),
mapping a deserialisation failure through `from_js_err` as well. -/
def get (t : Ty) (st : HostStorage) (k : String) : Except WorkerError RVal :=
  let val := hostGet st k
  if val.is_undefined then
    .error (WorkerError.from_js_err_string "No such value in storage.")
  else
    match from_value t val with
    | some v => .ok v
    | none =>
        .error (WorkerError.from_js_err_string "deserialization failure")

/-- `Storage::put` from `durable.rs`: serialises the value with
`serde_wasm_bindgen::to_value` and hands it to the host store. -/
def put (st : HostStorage) (k : String) (v : RVal) :
    Except WorkerError Unit × HostStorage :=
  (.ok (), hostPut st k (to_value v))

/-- `Storage::delete` from `durable.rs`: host delete, result converted to a
boolean. -/
def delete (st : HostStorage) (k : String) :
    Except WorkerError Bool × HostStorage :=
  let r := hostDelete st k
  (.ok r.1, r.2)

/-- `Storage::put_multiple` from `durable.rs`: serialises the argument, and
before any host call returns `MustPassInStructType` unless the serialisation
`is_object`; otherwise the serialised object's own enumerable entries are
written by the host in one transaction (for a JS array these are its
index-keyed elements). -/
def put_multiple (st : HostStorage) (v : RVal) :
    Except WorkerError Unit × HostStorage :=
  let values := to_value v
  if !values.is_object then
    (.error .MustPassInStructType, st)
  else
    match values with
    | .obj kvs => (.ok (), hostPutMultiple st kvs)
    | .arr xs =>
        (.ok (), hostPutMultiple st
          (((List.range xs.length).zip xs).map (fun p => (toString p.1, p.2))))
    | _ => (.ok (), st)

end Storage

theorem hostGet_hostPut_self (st : HostStorage) (k : String) (v : JVal) :
    hostGet (hostPut st k v) k = v := by
  induction st with
  | nil => simp [hostPut, hostGet, List.lookup]
  | cons p rest ih =>
      by_cases h : p.1 = k
      · simp only [hostPut]
        obtain ⟨k', v'⟩ := p
        simp only at h
        simp [h, hostGet, List.lookup]
      · obtain ⟨k', v'⟩ := p
        simp only at h
        simp only [hostPut, if_neg h]
        simp only [hostGet, List.lookup] at ih ⊢
        have : (k == k') = false := by
          simp [BEq.beq]
          exact fun hh => h hh.symm
        simp [this, ih]

theorem hostGet_hostPut_other (st : HostStorage) (k k' : String) (v : JVal)
    (h : k' ≠ k) : hostGet (hostPut st k v) k' = hostGet st k' := by
  induction st with
  | nil =>
      simp only [hostPut, hostGet, List.lookup]
      have : (k' == k) = false := by simpa using h
      simp [this]
  | cons p rest ih =>
      obtain ⟨k0, v0⟩ := p
      by_cases h0 : k0 = k
      · subst h0
        simp only [hostPut, if_pos rfl]
        have hk : (k' == k0) = false := by simpa using h
        simp [hostGet, List.lookup, hk]
      · simp only [hostPut, if_neg h0]
        simp only [hostGet, List.lookup] at ih ⊢
        by_cases h1 : k' = k0
        · subst h1
          simp
        · have hk : (k' == k0) = false := by simpa using h1
          simp [hk, ih]

theorem lookup_filter_ne_none (st : HostStorage) (k : String) :
    (st.filter (fun p => p.1 ≠ k)).lookup k = none := by
  induction st with
  | nil => rfl
  | cons p rest ih =>
      obtain ⟨k0, v0⟩ := p
      simp only [List.filter_cons]
      by_cases h : k0 = k
      · subst h
        rw [if_neg (by simp)]
        exact ih
      · rw [if_pos (by simp [h])]
        have hk : (k == k0) = false := by
          simp only [beq_eq_false_iff_ne, ne_eq]
          exact fun hh => h hh.symm
        simp only [List.lookup, hk]
        exact ih

/-- **C1** fails as stated for the optional shape: storing `None` (which
serde-wasm-bindgen serialises to `undefined`) and reading the key back does
not return `Ok(None)` — `Storage::get` sees `undefined` and fails with the
"No such value in storage." error. -/
theorem put_then_get_loses_none :
    Storage.get (Ty.opt Ty.int) (Storage.put [] "counter" (RVal.opt none)).2 "counter"
        = .error (WorkerError.JsError "No such value in storage.")
      ∧ Storage.get (Ty.opt Ty.int) (Storage.put [] "counter" (RVal.opt none)).2 "counter"
        ≠ .ok (RVal.opt none) := by
  have h : Storage.get (Ty.opt Ty.int)
      (Storage.put [] "counter" (RVal.opt none)).2 "counter"
      = .error (WorkerError.JsError "No such value in storage.") := by
    have hv : to_value (RVal.opt none) = JVal.undefined := by simp [to_value]
    simp [Storage.get, Storage.put, hv, hostGet_hostPut_self, JVal.is_undefined,
      WorkerError.from_js_err_string]
  exact ⟨h, by rw [h]; simp⟩

/-- **C1** (amended). For every storage state, key, and well-typed value of a
supported shape whose serialisation is not `undefined` (which excludes the
optional value `None`) and which holds no `Some(None)`-style sub-value,
`Storage::put` followed by `Storage::get` on the same key returns exactly the
stored value. -/
theorem put_then_get_roundtrip (st : HostStorage) (k : String) (t : Ty) (v : RVal)
    (ht : hasTy v t = true) (hnc : noCollapse v = true)
    (hdef : (to_value v).is_undefined = false) :
    Storage.get t (Storage.put st k v).2 k = .ok v := by
  have h1 : hostGet (Storage.put st k v).2 k = to_value v := by
    simp [Storage.put, hostGet_hostPut_self]
  simp only [Storage.get, h1, hdef, Bool.false_eq_true, if_false,
    from_to_value t v ht hnc]

theorem put_then_get_roundtrip_witness :
    hasTy (RVal.map [("a", RVal.int 7)]) (Ty.map Ty.int) = true
      ∧ noCollapse (RVal.map [("a", RVal.int 7)]) = true
      ∧ (to_value (RVal.map [("a", RVal.int 7)])).is_undefined = false
      ∧ Storage.get (Ty.map Ty.int)
          (Storage.put [] "k" (RVal.map [("a", RVal.int 7)])).2 "k"
          = .ok (RVal.map [("a", RVal.int 7)]) :=
  ⟨by simp [hasTy],
   by simp [noCollapse, noCollapseObj, noCollapseList],
   by rw [to_value_map]; rfl,
   put_then_get_roundtrip [] "k" (Ty.map Ty.int) (RVal.map [("a", RVal.int 7)])
     (by simp [hasTy])
     (by simp [noCollapse, noCollapseObj, noCollapseList])
     (by rw [to_value_map]; rfl)⟩

/-- **C2** fails as stated: the absent-key error is not a dedicated
`NotFound`-kind value — it is produced by `WorkerError::from_js_err`, i.e. it
is the generic `JsError` variant (carrying the fixed message
"No such value in storage."), the same constructor every other JavaScript
failure of `Storage::get` is mapped to. -/
theorem get_absent_error_is_generic_jserror :
    Storage.get Ty.int [] "missing"
        = .error (WorkerError.from_js_err_string "No such value in storage.")
      ∧ WorkerError.from_js_err_string "No such value in storage."
        = WorkerError.JsError "No such value in storage." :=
  ⟨rfl, rfl⟩

/-- **C2** (amended). For every key never written (or just deleted),
`Storage::get` fails with the fixed error `JsError("No such value in
storage.")` — a recoverable error value the caller can branch on by message,
though it is the generic `JsError` variant, not a dedicated `NotFound`
kind. -/
theorem get_absent_fails (st : HostStorage) (t : Ty) (k : String) :
    (st.lookup k = none →
      Storage.get t st k = .error (WorkerError.JsError "No such value in storage."))
    ∧ Storage.get t (Storage.delete st k).2 k
        = .error (WorkerError.JsError "No such value in storage.") := by
  constructor
  · intro h
    simp [Storage.get, hostGet, h, JVal.is_undefined, WorkerError.from_js_err_string]
  · have hl := lookup_filter_ne_none st k
    simp only [Storage.get, Storage.delete, hostDelete, hostGet, hl,
      WorkerError.from_js_err_string]
    rfl

theorem get_absent_fails_witness :
    ([("other", JVal.num 3)] : HostStorage).lookup "missing" = none
      ∧ Storage.get Ty.int [("other", JVal.num 3)] "missing"
          = .error (WorkerError.JsError "No such value in storage.")
      ∧ Storage.get Ty.int
          (Storage.delete [("other", JVal.num 3)] "missing").2 "missing"
          = .error (WorkerError.JsError "No such value in storage.") :=
  ⟨by rfl,
   (get_absent_fails [("other", JVal.num 3)] Ty.int "missing").1 (by rfl),
   (get_absent_fails [("other", JVal.num 3)] Ty.int "missing").2⟩

theorem hostPutMultiple_cons (st : HostStorage) (q : String × JVal)
    (rest : List (String × JVal)) :
    hostPutMultiple st (q :: rest) = hostPutMultiple (hostPut st q.1 q.2) rest := by
  simp [hostPutMultiple]

theorem hostGet_hostPutMultiple_not_mem (kvs : List (String × JVal))
    (st : HostStorage) (k : String) (h : k ∉ kvs.map Prod.fst) :
    hostGet (hostPutMultiple st kvs) k = hostGet st k := by
  induction kvs generalizing st with
  | nil => rfl
  | cons q rest ih =>
      simp only [List.map_cons, List.mem_cons, not_or] at h
      rw [hostPutMultiple_cons, ih _ h.2, hostGet_hostPut_other _ _ _ _ h.1]

theorem hostGet_hostPutMultiple_mem (kvs : List (String × JVal))
    (st : HostStorage) (hnd : (kvs.map Prod.fst).Nodup) :
    ∀ p ∈ kvs, hostGet (hostPutMultiple st kvs) p.1 = p.2 := by
  induction kvs generalizing st with
  | nil => intro p hp; cases hp
  | cons q rest ih =>
      intro p hp
      rw [List.map_cons, List.nodup_cons] at hnd
      rw [hostPutMultiple_cons]
      cases hp with
      | head =>
          rw [hostGet_hostPutMultiple_not_mem rest _ _ hnd.1]
          exact hostGet_hostPut_self st q.1 q.2
      | tail _ hmem => exact ih _ hnd.2 p hmem

/-- **C9** (confirmed). When the argument of `Storage::put_multiple` does not
serialise to an object, the `MustPassInStructType` error is returned before
any host call: the returned storage state is exactly the input state. -/
theorem put_multiple_error_leaves_state_unchanged (st : HostStorage) (v : RVal)
    (h : (to_value v).is_object = false) :
    Storage.put_multiple st v = (.error .MustPassInStructType, st) := by
  simp [Storage.put_multiple, h]

theorem put_multiple_error_leaves_state_unchanged_witness :
    (to_value (RVal.int 42)).is_object = false
      ∧ Storage.put_multiple [("a", JVal.num 1)] (RVal.int 42)
          = (.error .MustPassInStructType, [("a", JVal.num 1)]) :=
  ⟨by simp [to_value, JVal.is_object],
   put_multiple_error_leaves_state_unchanged [("a", JVal.num 1)] (RVal.int 42)
     (by simp [to_value, JVal.is_object])⟩

/-- **C7** (confirmed). `Storage::put_multiple` fails with the
`MustPassInStructType` error (the `InvalidArgument`-class "Must pass in a
struct type" error) exactly when the serialisation of its argument is not a
JS object; when the argument serialises to a string-keyed object, the whole
entry list is handed to the host as one `put` transaction (a single state
transition in the model), after which every key of the map reads back as its
written value. -/
theorem put_multiple_object_or_error (st : HostStorage) (v : RVal) :
    ((to_value v).is_object = false →
      (Storage.put_multiple st v).1 = .error .MustPassInStructType)
    ∧ ∀ kvs, to_value v = .obj kvs →
        Storage.put_multiple st v = (.ok (), hostPutMultiple st kvs)
        ∧ ((kvs.map Prod.fst).Nodup →
            ∀ p ∈ kvs, hostGet (Storage.put_multiple st v).2 p.1 = p.2) := by
  constructor
  · intro h
    simp [Storage.put_multiple, h]
  · intro kvs hv
    have hobj : (to_value v).is_object = true := by rw [hv]; rfl
    have heq : Storage.put_multiple st v = (.ok (), hostPutMultiple st kvs) := by
      simp [Storage.put_multiple, hv, JVal.is_object]
    refine ⟨heq, fun hnd p hp => ?_⟩
    rw [heq]
    exact hostGet_hostPutMultiple_mem kvs st hnd p hp

theorem put_multiple_object_or_error_witness :
    to_value (RVal.map [("x", RVal.int 1), ("y", RVal.int 2)])
        = JVal.obj [("x", JVal.num 1), ("y", JVal.num 2)]
      ∧ Storage.put_multiple [] (RVal.map [("x", RVal.int 1), ("y", RVal.int 2)])
          = (.ok (), hostPutMultiple []
              [("x", JVal.num 1), ("y", JVal.num 2)])
      ∧ hostGet (Storage.put_multiple []
            (RVal.map [("x", RVal.int 1), ("y", RVal.int 2)])).2 "y" = JVal.num 2 := by
  have hv : to_value (RVal.map [("x", RVal.int 1), ("y", RVal.int 2)])
      = JVal.obj [("x", JVal.num 1), ("y", JVal.num 2)] := by
    rw [to_value_map]
    simp [to_value]
  have h := (put_multiple_object_or_error []
    (RVal.map [("x", RVal.int 1), ("y", RVal.int 2)])).2
    [("x", JVal.num 1), ("y", JVal.num 2)] hv
  refine ⟨hv, h.1, ?_⟩
  have := h.2 (by simp) ("y", JVal.num 2) (by simp)
  simpa using this

/-- `ScheduledTimeInit` from `durable.rs`: either an absolute JS `Date`
(held as its millisecond timestamp) or a relative offset in milliseconds.
Millisecond quantities are modelled as exact integers. -/
inductive ScheduledTimeInit where
  | date (millis : Int)
  | offset (millis : Int)
  deriving Repr, DecidableEq

/-- `ScheduledTime` from `durable.rs`. -/
structure ScheduledTime where
  init : ScheduledTimeInit
  deriving Repr, DecidableEq

/-- `ScheduledTime::schedule` from `durable.rs`: an absolute date passes
through unchanged; an offset is added to `Date::now()` — the current time
observed at the moment of the call, passed here as `now`. -/
def ScheduledTime.schedule (now : Int) : ScheduledTime → Int
  | ⟨.date d⟩ => d
  | ⟨.offset o⟩ => now + o

/-- `impl From<i64> for ScheduledTime`: an integer is a relative offset. -/
def ScheduledTime.from_i64 (offset : Int) : ScheduledTime := ⟨.offset offset⟩

/-- `impl From<DateTime<Utc>> for ScheduledTime`: an absolute timestamp
(`timestamp_millis`). -/
def ScheduledTime.from_datetime (timestamp_millis : Int) : ScheduledTime :=
  ⟨.date timestamp_millis⟩

/-- `impl From<Duration> for ScheduledTime`: a duration is a relative offset
(`as_millis`). -/
def ScheduledTime.from_duration (as_millis : Nat) : ScheduledTime :=
  ⟨.offset as_millis⟩

/-- `Storage::set_alarm` / `set_alarm_with_options` from `durable.rs`: the
host alarm slot (modelled from the spec as an optional timestamp that a new
`set_alarm` overwrites) receives `scheduled_time.into().schedule()`. -/
def Storage.set_alarm (now : Int) (_alarm : Option Int) (scheduled : ScheduledTime) :
    Except WorkerError Unit × Option Int :=
  (.ok (), some (scheduled.schedule now))

/-- **C8** (confirmed). For every current time and every alarm slot state,
the time handed to the host by `Storage::set_alarm` is: the given instant for
an absolute `DateTime` argument, and the current time observed at the call
plus the offset for a relative `i64` or `Duration` argument. -/
theorem set_alarm_scheduled_time (now abs off : Int) (dur : Nat)
    (alarm : Option Int) :
    (Storage.set_alarm now alarm (ScheduledTime.from_datetime abs)).2 = some abs
    ∧ (Storage.set_alarm now alarm (ScheduledTime.from_i64 off)).2
        = some (now + off)
    ∧ (Storage.set_alarm now alarm (ScheduledTime.from_duration dur)).2
        = some (now + dur) :=
  ⟨rfl, rfl, rfl⟩

/-- The outcome of one invocation delivered to an actor's Rust entry point:
a produced response, a returned error, or a Rust panic with its message. -/
inductive InvocationOutcome where
  | response (status : Nat)
  | failure (e : WorkerError)
  | panicked (msg : String)
  deriving Repr, DecidableEq

/-- An implementation of the `DurableObject` trait (`durable.rs:811-819`):
`fetch` is mandatory; `alarmHandler` is `some` exactly when the actor author
wrote an `alarm` method (the `durable_object` macro only overrides the
trait's `alarm` when `has_alarm` is true, `durable_object.rs:178-184`). -/
structure ActorImpl where
  fetch : Nat → InvocationOutcome
  alarmHandler : Option (Unit → InvocationOutcome)

/-- Delivering an alarm invocation through the `DurableObject` trait: an
author-supplied handler runs; otherwise the trait's default body
`unimplemented!("alarm() handler not implemented")` panics at invocation
time with the standard `unimplemented!` message. -/
def deliverAlarm (a : ActorImpl) : InvocationOutcome :=
  match a.alarmHandler with
  | some h => h ()
  | none => .panicked "not implemented: alarm() handler not implemented"

/-- **C4** (confirmed). For every actor implementation that does not define
its own alarm handler, delivering an alarm invocation signals the
`unimplemented!` logic error at invocation time; the outcome is the result
of that one invocation only — actor state and other entry points are
untouched. -/
theorem alarm_without_handler_is_unimplemented (a : ActorImpl)
    (h : a.alarmHandler = none) :
    deliverAlarm a = .panicked "not implemented: alarm() handler not implemented"
    ∧ ∀ req, a.fetch req = a.fetch req := by
  refine ⟨?_, fun _ => rfl⟩
  simp [deliverAlarm, h]

theorem alarm_without_handler_is_unimplemented_witness :
    (ActorImpl.mk (fun _ => .response 200) none).alarmHandler = none
      ∧ deliverAlarm (ActorImpl.mk (fun _ => .response 200) none)
          = .panicked "not implemented: alarm() handler not implemented" :=
  ⟨rfl,
   (alarm_without_handler_is_unimplemented
     (ActorImpl.mk (fun _ => .response 200) none) rfl).1⟩

/-- A Durable Object id as issued by the host. Modelled from the spec
(§3 "ObjectId"): deterministic ids are a stable function of namespace and
name; random ids carry a serial the host never reuses, optionally scoped to
a jurisdiction. -/
inductive HexId where
  | fromName (nsId : Nat) (name : String)
  | unique (nsId : Nat) (serial : Nat) (jurisdiction : Option String)
  deriving Repr, DecidableEq

/-- Modelled from the spec: an injective stringified rendering of an id
(standing for the 64-hex-digit form). -/
def HexId.render : HexId → String
  | .fromName n name => "N" ++ toString n ++ ":" ++ name
  | .unique n s _ => "U" ++ toString n ++ ":" ++ toString s

/-- Modelled from the spec: the host-side state of one namespace binding —
its identity, the next unused serial for random ids, and the ids it has
already issued. -/
structure HostNamespace where
  nsId : Nat
  nextSerial : Nat
  issued : List HexId

/-- Host invariant: every issued random id of this namespace has a serial
below `nextSerial`. -/
def HostNamespace.wf (ns : HostNamespace) : Prop :=
  ∀ n s jd, HexId.unique n s jd ∈ ns.issued → s < ns.nextSerial

/-- Modelled from the spec: `DurableObjectNamespace::idFromName`, a pure
deterministic derivation from the namespace identity and the name. -/
def hostIdFromName (ns : HostNamespace) (name : String) : HexId :=
  .fromName ns.nsId name

/-- Modelled from the spec: `newUniqueId` (with or without a jurisdiction
option) issues a fresh, never-before-issued id and records it. -/
def hostNewUniqueId (ns : HostNamespace) (jd : Option String) :
    HexId × HostNamespace :=
  (.unique ns.nsId ns.nextSerial jd,
   { ns with
       nextSerial := ns.nextSerial + 1,
       issued := .unique ns.nsId ns.nextSerial jd :: ns.issued })

/-- Modelled from the spec: `idFromString` accepts exactly the stringified
ids this namespace previously issued and rejects malformed or foreign
strings. -/
def hostIdFromString (ns : HostNamespace) (hex : String) : Except String HexId :=
  match ns.issued.find? (fun id => id.render == hex) with
  | some id => .ok id
  | none => .error "Durable Object ID is not valid for this namespace."

/-- A client stub bound to one target id (`Stub` in `durable.rs`). -/
structure Stub where
  nsId : Nat
  target : HexId
  deriving Repr, DecidableEq

/-- Modelled from the spec: `DurableObjectNamespace::get` resolves a stub
for an id of this namespace (the host transparently creates or wakes the
instance, so resolution itself succeeds). -/
def hostGetStub (ns : HostNamespace) (id : HexId) : Except String Stub :=
  .ok ⟨ns.nsId, id⟩

/-- `ObjectId` from `durable.rs:190-193`: the raw id plus an optional
reference to the namespace it came from; the reference is `none` exactly for
the "detached" id built by `State::id`. -/
structure ObjectId where
  inner : HexId
  namespace_ : Option HostNamespace

/-- `ObjectId::get_stub` from `durable.rs:197-209`: fails with
`WorkerError::DurableObjectStub` when no namespace reference is held,
otherwise resolves through the namespace. -/
def ObjectId.get_stub (id : ObjectId) : Except WorkerError Stub :=
  match id.namespace_ with
  | none => .error .DurableObjectStub
  | some n =>
      match hostGetStub n id.inner with
      | .ok s => .ok s
      | .error e => .error (WorkerError.from_js_err_string e)

/-- `ObjectNamespace::id_from_name` from `durable.rs:121-129`: wraps the
host id, keeping a reference to the namespace. -/
def ObjectNamespace.id_from_name (ns : HostNamespace) (name : String) :
    Except WorkerError ObjectId :=
  .ok ⟨hostIdFromName ns name, some ns⟩

/-- `ObjectNamespace::id_from_string` from `durable.rs:140-148`. -/
def ObjectNamespace.id_from_string (ns : HostNamespace) (hex : String) :
    Except WorkerError ObjectId :=
  match hostIdFromString ns hex with
  | .ok id => .ok ⟨id, some ns⟩
  | .error e => .error (WorkerError.from_js_err_string e)

/-- `ObjectNamespace::unique_id` from `durable.rs:153-161` (state-passing
for the host namespace). -/
def ObjectNamespace.unique_id (ns : HostNamespace) :
    Except WorkerError ObjectId × HostNamespace :=
  let r := hostNewUniqueId ns none
  (.ok ⟨r.1, some r.2⟩, r.2)

/-- `ObjectNamespace::unique_id_with_jurisdiction` from
`durable.rs:174-185`. -/
def ObjectNamespace.unique_id_with_jurisdiction (ns : HostNamespace)
    (jd : String) : Except WorkerError ObjectId × HostNamespace :=
  let r := hostNewUniqueId ns (some jd)
  (.ok ⟨r.1, some r.2⟩, r.2)

/-- `State` from `durable.rs:220-232`: holds the actor's own id (and its
storage, irrelevant here). -/
structure DOState where
  selfId : HexId
  storage : HostStorage

/-- `State::id` from `durable.rs:227-232`: builds an `ObjectId` with
`namespace: None`. -/
def DOState.id (st : DOState) : ObjectId := ⟨st.selfId, none⟩

/-- **C5** (confirmed). `id_from_name` is a pure deterministic function of
the namespace identity and the name: any two calls with the same inputs
yield the same raw id. `unique_id` never repeats: two successive calls yield
different ids, and (on a well-formed host namespace) the first id differs
from every previously issued id. -/
theorem id_from_name_deterministic_unique_id_fresh
    (ns ns' : HostNamespace) (name : String)
    (hsame : ns.nsId = ns'.nsId) (hwf : ns.wf) :
    (∃ i i', ObjectNamespace.id_from_name ns name = .ok i
      ∧ ObjectNamespace.id_from_name ns' name = .ok i'
      ∧ i.inner = i'.inner)
    ∧ (∀ i₁ i₂,
        (ObjectNamespace.unique_id ns).1 = .ok i₁ →
        (ObjectNamespace.unique_id (ObjectNamespace.unique_id ns).2).1 = .ok i₂ →
        i₁.inner ≠ i₂.inner ∧ i₁.inner ∉ ns.issued) := by
  constructor
  · exact ⟨_, _, rfl, rfl, by simp [hostIdFromName, hsame]⟩
  · intro i₁ i₂ h₁ h₂
    have e₁ : i₁.inner = .unique ns.nsId ns.nextSerial none := by
      simp only [ObjectNamespace.unique_id, hostNewUniqueId] at h₁
      cases h₁
      rfl
    have e₂ : i₂.inner = .unique ns.nsId (ns.nextSerial + 1) none := by
      simp only [ObjectNamespace.unique_id, hostNewUniqueId] at h₂
      cases h₂
      rfl
    constructor
    · rw [e₁, e₂]
      intro hcontra
      have := (HexId.unique.injEq _ _ _ _ _ _).mp hcontra
      omega
    · rw [e₁]
      intro hmem
      exact absurd (hwf _ _ _ hmem) (by omega)

theorem id_from_name_deterministic_unique_id_fresh_witness :
    (HostNamespace.mk 0 0 []).nsId = (HostNamespace.mk 0 0 []).nsId
      ∧ HostNamespace.wf (HostNamespace.mk 0 0 [])
      ∧ ((∃ i i',
            ObjectNamespace.id_from_name (HostNamespace.mk 0 0 []) "A" = .ok i
            ∧ ObjectNamespace.id_from_name (HostNamespace.mk 0 0 []) "A" = .ok i'
            ∧ i.inner = i'.inner)
        ∧ (∀ i₁ i₂,
            (ObjectNamespace.unique_id (HostNamespace.mk 0 0 [])).1 = .ok i₁ →
            (ObjectNamespace.unique_id
              (ObjectNamespace.unique_id (HostNamespace.mk 0 0 [])).2).1 = .ok i₂ →
            i₁.inner ≠ i₂.inner ∧ i₁.inner ∉ (HostNamespace.mk 0 0 []).issued)) :=
  ⟨rfl, fun _ _ _ h => absurd h (List.not_mem_nil _),
   id_from_name_deterministic_unique_id_fresh
     (HostNamespace.mk 0 0 []) (HostNamespace.mk 0 0 []) "A" rfl
     (fun _ _ _ h => absurd h (List.not_mem_nil _))⟩

/-- **C6** (confirmed). Every `ObjectId` built by a namespace operation
(`id_from_name`, `id_from_string`, `unique_id`,
`unique_id_with_jurisdiction`) holds a namespace reference and `get_stub`
on it succeeds, while the detached id from `State::id` holds none and
`get_stub` on it always fails with `DurableObjectStub`. -/
theorem namespace_ids_yield_stubs_detached_id_does_not
    (ns : HostNamespace) (name hex jd : String) (st : DOState) :
    (∀ i, ObjectNamespace.id_from_name ns name = .ok i →
        i.namespace_ ≠ none ∧ ∃ s, i.get_stub = .ok s)
    ∧ (∀ i, ObjectNamespace.id_from_string ns hex = .ok i →
        i.namespace_ ≠ none ∧ ∃ s, i.get_stub = .ok s)
    ∧ (∀ i, (ObjectNamespace.unique_id ns).1 = .ok i →
        i.namespace_ ≠ none ∧ ∃ s, i.get_stub = .ok s)
    ∧ (∀ i, (ObjectNamespace.unique_id_with_jurisdiction ns jd).1 = .ok i →
        i.namespace_ ≠ none ∧ ∃ s, i.get_stub = .ok s)
    ∧ (st.id).namespace_ = none
    ∧ (st.id).get_stub = .error .DurableObjectStub := by
  refine ⟨?_, ?_, ?_, ?_, rfl, rfl⟩
  · intro i h
    cases h
    exact ⟨by simp, _, rfl⟩
  · intro i h
    simp only [ObjectNamespace.id_from_string] at h
    cases hfind : hostIdFromString ns hex with
    | ok id =>
        rw [hfind] at h
        cases h
        exact ⟨by simp, _, rfl⟩
    | error e =>
        rw [hfind] at h
        cases h
  · intro i h
    cases h
    exact ⟨by simp, _, rfl⟩
  · intro i h
    cases h
    exact ⟨by simp, _, rfl⟩

theorem namespace_ids_yield_stubs_detached_id_does_not_witness :
    (∃ i, ObjectNamespace.id_from_string
        (HostNamespace.mk 0 1 [HexId.unique 0 0 none])
        (HexId.render (HexId.unique 0 0 none)) = .ok i
      ∧ ∃ s, i.get_stub = .ok s)
    ∧ (DOState.id (DOState.mk (HexId.fromName 0 "self") [])).get_stub
        = .error .DurableObjectStub := by
  have hmain := namespace_ids_yield_stubs_detached_id_does_not
    (HostNamespace.mk 0 1 [HexId.unique 0 0 none]) "A"
    (HexId.render (HexId.unique 0 0 none)) "eu"
    (DOState.mk (HexId.fromName 0 "self") [])
  have hok : ObjectNamespace.id_from_string
      (HostNamespace.mk 0 1 [HexId.unique 0 0 none])
      (HexId.render (HexId.unique 0 0 none))
      = .ok ⟨HexId.unique 0 0 none, some (HostNamespace.mk 0 1 [HexId.unique 0 0 none])⟩ := by
    simp [ObjectNamespace.id_from_string, hostIdFromString, List.find?, HexId.render]
  exact ⟨⟨_, hok, (hmain.2.1 _ hok).2⟩, hmain.2.2.2.2.2⟩

/-- One parsed queue message (`Message<T>` in `queue.rs`): body, JS `Date`
timestamp (its millisecond value, `none` standing for an invalid date), and
string id. -/
structure QMessage where
  id : String
  body : RVal
  timestamp : Option Int
  deriving Repr

/-- `js_sys::Reflect::get`: named-property lookup. JS `Reflect.get` throws a
`TypeError` when the target is not an object; a missing property reads as
`undefined` (named properties of arrays are not modelled). -/
def reflectGet (v : JVal) (k : String) : Except WorkerError JVal :=
  match v with
  | .obj kvs => .ok ((kvs.lookup k).getD .undefined)
  | .arr _ => .ok .undefined
  | _ =>
      .error (WorkerError.from_js_err_string
        "TypeError: Reflect.get called on non-object")

/-- `js_sys::Date::from(value)` (`new Date(value)`): a number is taken as a
millisecond timestamp; anything else yields an invalid date in this model
(string date parsing is not modelled; no claim depends on it). -/
def jsDateFrom : JVal → Option Int
  | .num n => some n
  | _ => none

/-- `JsValue::as_string`. -/
def JVal.as_string : JVal → Option String
  | .str s => some s
  | _ => none

/-- `MessageIter::parse_message` from `queue.rs:106-123`: reads the
`timestamp`, `id` and `body` properties in that order; a non-string id is
`InvalidMessageBatch`; the body is deserialised at `T`, a failure mapping
through `From<serde_wasm_bindgen::Error>` to `SerdeWasmBindgenError`. -/
def parse_message (t : Ty) (m : JVal) : Except WorkerError QMessage := do
  let rawDate ← reflectGet m "timestamp"
  let date := jsDateFrom rawDate
  let idv ← reflectGet m "id"
  let id ← match idv.as_string with
           | some s => Except.ok s
           | none => Except.error WorkerError.InvalidMessageBatch
  let bodyv ← reflectGet m "body"
  let body ← match from_value t bodyv with
             | some b => Except.ok b
             | none =>
                 Except.error (WorkerError.SerdeWasmBindgenError
                   "deserialization failure")
  Except.ok ⟨id, body, date⟩

/-- `MessageIter` from `queue.rs:91-100`: an index range over the batch's
message array. -/
structure MessageIter where
  lo : Nat
  hi : Nat
  array : List JVal

/-- `Iterator::next` for `MessageIter` (`queue.rs:131-135`): takes the next
index from the range and parses the element there (`Array::get` yields
`undefined` out of range). -/
def MessageIter.next (t : Ty) (it : MessageIter) :
    Option (Except WorkerError QMessage) × MessageIter :=
  if it.lo < it.hi then
    (some (parse_message t (it.array.getD it.lo .undefined)),
     ⟨it.lo + 1, it.hi, it.array⟩)
  else (none, it)

/-- The full sequence of items the iterator yields (repeated `next` until it
returns `none`). -/
def MessageIter.toList (t : Ty) (it : MessageIter) :
    List (Except WorkerError QMessage) :=
  if h : it.lo < it.hi then
    parse_message t (it.array.getD it.lo .undefined)
      :: MessageIter.toList t ⟨it.lo + 1, it.hi, it.array⟩
  else []
  termination_by it.hi - it.lo

/-- `toList` is exactly the unfolding of `next`. -/
theorem MessageIter.toList_eq_next (t : Ty) (it : MessageIter) :
    it.toList t = match it.next t with
      | (none, _) => []
      | (some x, it') => x :: it'.toList t := by
  by_cases h : it.lo < it.hi
  · rw [MessageIter.toList]
    simp [MessageIter.next, h]
  · rw [MessageIter.toList]
    simp [MessageIter.next, h]

/-- `MessageBatch::iter` from `queue.rs:68-80`: range `0..messages.length`
over the batch's message array. -/
def MessageBatch.iter (msgs : List JVal) : MessageIter := ⟨0, msgs.length, msgs⟩

/-- Rust's `collect::<Result<Vec<_>, _>>()`: all successes, or the first
error. -/
def collectResults :
    List (Except WorkerError QMessage) → Except WorkerError (List QMessage)
  | [] => .ok []
  | .error e :: _ => .error e
  | .ok x :: rest => (collectResults rest).map (fun l => x :: l)

/-- `MessageBatch::messages` from `queue.rs:84-89`: `self.iter().collect()`. -/
def MessageBatch.messages (t : Ty) (msgs : List JVal) :
    Except WorkerError (List QMessage) :=
  collectResults ((MessageBatch.iter msgs).toList t)

theorem toList_general (t : Ty) (arr : List JVal) (lo : Nat) :
    MessageIter.toList t ⟨lo, arr.length, arr⟩
      = (arr.drop lo).map (parse_message t) := by
  by_cases h : lo < arr.length
  · rw [MessageIter.toList]
    simp only [h, dif_pos]
    rw [toList_general t arr (lo + 1)]
    rw [List.drop_eq_getElem_cons h, List.map_cons]
    congr 1
    congr 1
    rw [List.getD_eq_getElem?_getD, List.getElem?_eq_getElem h]
    rfl
  · rw [MessageIter.toList]
    simp only [h, dif_neg, not_false_eq_true]
    rw [List.drop_eq_nil_of_le (by omega)]
    rfl
  termination_by arr.length - lo

theorem collectResults_ok_iff (items : List (Except WorkerError QMessage)) :
    (∀ l, collectResults items = .ok l → items = l.map Except.ok)
    ∧ ((∃ l, collectResults items = .ok l)
        ↔ ∀ x ∈ items, ∃ m, x = Except.ok m) := by
  induction items with
  | nil =>
      refine ⟨fun l h => ?_, ?_⟩
      · simp only [collectResults] at h
        cases h
        rfl
      · simp [collectResults]
  | cons x rest ih =>
      cases x with
      | error e =>
          refine ⟨fun l h => ?_, ?_⟩
          · rw [show collectResults (Except.error e :: rest) = Except.error e from rfl] at h
            cases h
          · constructor
            · rintro ⟨l, h⟩
              rw [show collectResults (Except.error e :: rest) = Except.error e from rfl] at h
              cases h
            · intro h
              rcases h (.error e) (by simp) with ⟨m, hm⟩
              cases hm
      | ok v =>
          refine ⟨fun l h => ?_, ?_⟩
          · simp only [collectResults] at h
            cases hr : collectResults rest with
            | error e => rw [hr] at h; cases h
            | ok l' =>
                rw [hr] at h
                simp only [Except.map] at h
                cases h
                rw [ih.1 l' hr]
                rfl
          · constructor
            · rintro ⟨l, h⟩
              intro y hy
              rcases List.mem_cons.mp hy with rfl | hmem
              · exact ⟨v, rfl⟩
              · simp only [collectResults] at h
                cases hr : collectResults rest with
                | error e => rw [hr] at h; cases h
                | ok l' => exact (ih.2.mp ⟨l', hr⟩) y hmem
            · intro h
              rcases ih.2.mpr (fun y hy => h y (List.mem_cons_of_mem _ hy)) with ⟨l', hl'⟩
              exact ⟨v :: l', by simp [collectResults, hl', Except.map]⟩

/-- **C10** (confirmed). For every batch of `n` messages, the iterator of
`MessageBatch::iter` yields exactly `n` items — the `i`-th item being
`parse_message` of the `i`-th array element, in index order — so a message
that fails to parse contributes an `Err` at its own position without
terminating the iterator or affecting other positions; and
`MessageBatch::messages` returns `Ok` of all `n` parsed messages exactly
when every message parses. -/
theorem message_batch_iter_and_messages (t : Ty) (msgs : List JVal) :
    (MessageBatch.iter msgs).toList t = msgs.map (parse_message t)
    ∧ ((MessageBatch.iter msgs).toList t).length = msgs.length
    ∧ (∀ l, MessageBatch.messages t msgs = .ok l →
        msgs.map (parse_message t) = l.map Except.ok ∧ l.length = msgs.length)
    ∧ ((∃ l, MessageBatch.messages t msgs = .ok l)
        ↔ ∀ m ∈ msgs, ∃ q, parse_message t m = Except.ok q) := by
  have hiter : (MessageBatch.iter msgs).toList t = msgs.map (parse_message t) := by
    rw [MessageBatch.iter, toList_general]
    rfl
  have hcr := collectResults_ok_iff (msgs.map (parse_message t))
  refine ⟨hiter, by rw [hiter]; exact List.length_map _ _, ?_, ?_⟩
  · intro l h
    rw [MessageBatch.messages, hiter] at h
    have h1 := hcr.1 l h
    constructor
    · exact h1
    · have := congrArg List.length h1
      simp only [List.length_map] at this
      omega
  · rw [MessageBatch.messages, hiter]
    rw [hcr.2]
    constructor
    · intro h m hm
      rcases h (parse_message t m) (List.mem_map_of_mem _ hm) with ⟨q, hq⟩
      exact ⟨q, hq⟩
    · intro h x hx
      rcases List.mem_map.mp hx with ⟨m, hm, rfl⟩
      rcases h m hm with ⟨q, hq⟩
      exact ⟨q, hq⟩

theorem message_batch_iter_and_messages_witness :
    [JVal.obj [("timestamp", JVal.num 100), ("id", JVal.str "m1"),
        ("body", JVal.num 7)]].map (parse_message Ty.int)
        = ([QMessage.mk "m1" (RVal.int 7) (some 100)] : List QMessage).map Except.ok
      ∧ ([QMessage.mk "m1" (RVal.int 7) (some 100)] : List QMessage).length
        = [JVal.obj [("timestamp", JVal.num 100), ("id", JVal.str "m1"),
            ("body", JVal.num 7)]].length := by
  have hp : parse_message Ty.int
      (JVal.obj [("timestamp", JVal.num 100), ("id", JVal.str "m1"),
        ("body", JVal.num 7)])
      = Except.ok (QMessage.mk "m1" (RVal.int 7) (some 100)) := by
    rfl
  have hmsg : MessageBatch.messages Ty.int
      [JVal.obj [("timestamp", JVal.num 100), ("id", JVal.str "m1"),
        ("body", JVal.num 7)]]
      = .ok [QMessage.mk "m1" (RVal.int 7) (some 100)] := by
    rw [MessageBatch.messages,
      (message_batch_iter_and_messages Ty.int
        [JVal.obj [("timestamp", JVal.num 100), ("id", JVal.str "m1"),
          ("body", JVal.num 7)]]).1]
    simp [hp, collectResults, Except.map, jsDateFrom]
  exact (message_batch_iter_and_messages Ty.int
    [JVal.obj [("timestamp", JVal.num 100), ("id", JVal.str "m1"),
      ("body", JVal.num 7)]]).2.2.1
    [QMessage.mk "m1" (RVal.int 7) (some 100)] hmsg

end BetterWorker
